import Mathlib

/-!
Verification of the contract financial derivation and period-bucketing engine
of the Web-deploy repository.

The TypeScript source is shallowly embedded as follows:

* JavaScript numbers are modelled as rationals (`ℚ`); the arithmetic the code
  performs (sums, products, `Math.round`, `Math.ceil`, `Math.max`) is exact on
  the value ranges of the domain, and IEEE-754 rounding is out of scope.
* `Math.round x` is `⌊x + 1/2⌋` (JavaScript rounds half toward +∞) and
  `Math.ceil` is `⌈·⌉`.
* A date string is either empty (the JS falsy string), a non-empty string that
  `new Date` fails to parse, or a parsed calendar date `Ymd`.  Timestamps
  (`Date.getTime()`) are modelled in milliseconds since the Unix epoch with the
  time zone offset taken as 0, via the proleptic-Gregorian day count.
* A currency-formatted price (the code does
  `Number(String(p).replace(/[^0-9]/g, ''))`) is a string whose digit
  characters are concatenated and parsed, an empty result giving 0.
-/

/-- JS `Math.round`: round half toward positive infinity. -/
def jround (q : ℚ) : ℤ := ⌊q + 1/2⌋

/-- JS `x || d` for an optional numeric field: `undefined`, missing and `0`
are falsy and give the default. -/
def jsOrNum (v : Option ℚ) (d : ℚ) : ℚ :=
  match v with
  | none => d
  | some x => if x = 0 then d else x

/-- JS `x ?? d` (nullish coalescing) for an optional numeric field. -/
def jsNullish (v : Option ℚ) (d : ℚ) : ℚ := v.getD d

/-- `Number(String(p).replace(/[^0-9]/g, ''))`: keep the digit characters of a
price string, concatenate them and read the result as a number (`Number('')`
is `0`). -/
def stripDigits (s : String) : ℕ :=
  s.toList.foldl (fun acc c => if c.isDigit then acc * 10 + (c.toNat - 48) else acc) 0

/-- A calendar date as parsed from a `YYYY-MM-DD` string by `new Date`; a
successfully parsed date always has a month between 1 and 12. -/
structure Ymd where
  year : ℕ
  month : ℕ
  day : ℕ
  hm : 1 ≤ month ∧ month ≤ 12

/-- Leap year test of the Gregorian calendar. -/
def isLeap (y : ℕ) : Bool := y % 4 == 0 && (y % 100 != 0 || y % 400 == 0)

/-- Days in the months before month `m` of a non-leap year. -/
def daysBeforeMonth : ℕ → ℕ
  | 2 => 31
  | 3 => 59
  | 4 => 90
  | 5 => 120
  | 6 => 151
  | 7 => 181
  | 8 => 212
  | 9 => 243
  | 10 => 273
  | 11 => 304
  | 12 => 334
  | _ => 0

/-- Day count of a date in the proleptic Gregorian calendar, with
`0001-01-01` as day 0. -/
def civilDays (d : Ymd) : ℕ :=
  365 * (d.year - 1) + (d.year - 1) / 4 - (d.year - 1) / 100 + (d.year - 1) / 400
    + daysBeforeMonth d.month
    + (if 2 < d.month ∧ isLeap d.year then 1 else 0)
    + (d.day - 1)

/-- `new Date("YYYY-MM-DD").getTime()`: milliseconds since the Unix epoch
(1970-01-01 is day 719162 of the proleptic Gregorian calendar). -/
def msOf (d : Ymd) : ℤ := 86400000 * ((civilDays d : ℤ) - 719162)

/-- `getMonth()` of a parsed date: the 0-based month index. -/
def getMonth (d : Ymd) : Fin 12 := ⟨d.month - 1, by have := d.hm; omega⟩

/-- A date-string field of a document: the empty string (JS falsy), a
non-empty string `new Date` cannot parse, or a parsed date. -/
inductive DateStr where
  | empty : DateStr
  | bad : DateStr
  | ymd : Ymd → DateStr

/-- The period selector type of the financial dashboard. -/
inductive PType where
  | all : PType
  | year : PType
  | month : PType
  | custom : PType

/-- The period selector `{ type, start?, end? }`; an unset (or empty) bound is
`none`. -/
structure Period where
  ptype : PType
  startDate : Option Ymd
  endDate : Option Ymd

/-- Core of `isInPeriod` on a successfully parsed date.  `now` is the current
date used by the `year` and `month` period types.  For `custom`, the code
builds `end` and moves it to 23:59:59.999 local time (`+ 86399999` ms) and
rejects dates strictly outside the two bounds. -/
def isInPeriodYmd (now : Ymd) (p : Period) (d : Ymd) : Bool :=
  match p.ptype with
  | PType.all => true
  | PType.year => d.year == now.year
  | PType.month => d.year == now.year && getMonth d == getMonth now
  | PType.custom =>
      (match p.startDate with
       | none => true
       | some s => decide (msOf s ≤ msOf d)) &&
      (match p.endDate with
       | none => true
       | some e => decide (msOf d ≤ msOf e + 86399999))

/-- `isInPeriod(dateStr)` (FinancialDashboard, also duplicated inside
`computeMonthlyData`): an empty or unparsable date string yields `false`
before the period type is even considered. -/
def isInPeriod (now : Ymd) (p : Period) : DateStr → Bool
  | DateStr.empty => false
  | DateStr.bad => false
  | DateStr.ymd d => isInPeriodYmd now p d

/-- Period with only a type, both custom bounds unset. -/
def mkCustom (s e : Option Ymd) : Period := ⟨PType.custom, s, e⟩

/-- The date 2024-01-01. -/
def d20240101 : Ymd := ⟨2024, 1, 1, by omega⟩

/-- The date 2024-01-31. -/
def d20240131 : Ymd := ⟨2024, 1, 31, by omega⟩

/-- The date 2024-02-01. -/
def d20240201 : Ymd := ⟨2024, 2, 1, by omega⟩

/-- C5: for the custom period type, `isInPeriod` accepts a parsed date exactly
when it is on or after the start bound's midnight (if set) and at or before
the end bound's 23:59:59.999 (if set); an unset bound imposes no constraint,
and an empty or unparsable date string is always rejected.  In particular for
the period `{type: 'custom', start: '2024-01-01', end: '2024-01-31'}` the date
`2024-01-31` is included and `2024-02-01` is excluded. -/
theorem isInPeriod_custom_spec :
    (∀ (now : Ymd) (s e : Option Ymd),
      isInPeriod now (mkCustom s e) DateStr.empty = false ∧
      isInPeriod now (mkCustom s e) DateStr.bad = false) ∧
    (∀ (now : Ymd) (s e : Option Ymd) (d : Ymd),
      isInPeriod now (mkCustom s e) (DateStr.ymd d) = true ↔
        (∀ s0, s = some s0 → msOf s0 ≤ msOf d) ∧
        (∀ e0, e = some e0 → msOf d ≤ msOf e0 + 86399999)) ∧
    (∀ now : Ymd,
      isInPeriod now (mkCustom (some d20240101) (some d20240131))
        (DateStr.ymd d20240131) = true) ∧
    (∀ now : Ymd,
      isInPeriod now (mkCustom (some d20240101) (some d20240131))
        (DateStr.ymd d20240201) = false) := by
  refine ⟨fun now s e => ⟨rfl, rfl⟩, fun now s e d => ?_, fun now => ?_, fun now => ?_⟩
  · cases s with
    | none =>
      cases e with
      | none => simp [isInPeriod, isInPeriodYmd, mkCustom]
      | some e0 => simp [isInPeriod, isInPeriodYmd, mkCustom]
    | some s0 =>
      cases e with
      | none => simp [isInPeriod, isInPeriodYmd, mkCustom]
      | some e0 => simp [isInPeriod, isInPeriodYmd, mkCustom]
  · exact rfl
  · exact rfl

/-- A service line item (`services` or `formSnapshot.cartItems`): the price may
be a currency-formatted string; the quantity defaults to 1 via `?? 1`. -/
structure SvcItem where
  price : String
  quantity : Option ℚ

/-- A store line item: `Number(it.price)` and `Number(it.quantity || 1)`. -/
structure StoreItem where
  price : ℚ
  quantity : Option ℚ

/-- The fields of a contract document read by the financial derivations.  A
field that is absent in the document is `none` / empty. -/
structure Contract where
  id : String := ""
  clientName : Option String := none
  contractDate : DateStr := DateStr.empty
  eventDate : DateStr := DateStr.empty
  createdAt : DateStr := DateStr.empty
  totalAmount : Option ℚ := none
  travelFee : Option ℚ := none
  services : List SvcItem := []
  cartItems : List SvcItem := []
  storeItems : List StoreItem := []
  eventCompleted : Bool := false

/-- The chosen service-line list: explicit `services` when non-empty, else the
snapshot's cart items. -/
def svcListOf (c : Contract) : List SvcItem :=
  if c.services.isEmpty then c.cartItems else c.services

/-- `svcList.reduce((sum, it) => sum + price * qty, 0)` with the digit-stripped
price and `Number(it?.quantity ?? 1)`. -/
def servicesTotalRaw (l : List SvcItem) : ℚ :=
  l.foldl (fun s it => s + (stripDigits it.price : ℚ) * jsNullish it.quantity 1) 0

/-- `storeItems.reduce((sum, it) => sum + Number(it.price) * Number(it.quantity || 1), 0)`. -/
def storeTotalOf (c : Contract) : ℚ :=
  c.storeItems.foldl (fun s it => s + it.price * jsOrNum it.quantity 1) 0

/-- `Number(c.travelFee || 0)`. -/
def travelOf (c : Contract) : ℚ := jsOrNum c.travelFee 0

/-- `Number(c.totalAmount || 0)`. -/
def totalFromDoc (c : Contract) : ℚ := jsOrNum c.totalAmount 0

/-- `services = servicesTotalRaw > 0 ? servicesTotalRaw : Math.max(0, totalFromDoc - storeTotal - travel)`. -/
def servicesOf (c : Contract) : ℚ :=
  if 0 < servicesTotalRaw (svcListOf c) then servicesTotalRaw (svcListOf c)
  else max 0 (totalFromDoc c - storeTotalOf c - travelOf c)

/-- `total = Math.round(services + storeTotal + travel)`. -/
def totalOf (c : Contract) : ℚ :=
  ((jround (servicesOf c + storeTotalOf c + travelOf c) : ℤ) : ℚ)

/-- `depositAmount = servicesEstimated <= 0 && storeTotal > 0
  ? Math.ceil((storeTotal + travel) * 0.5)
  : Math.ceil(servicesEstimated * 0.2 + storeTotal * 0.5)` (AdminCalendar's
`computeAmounts`). -/
def depositOf (c : Contract) : ℚ :=
  if servicesOf c ≤ 0 ∧ 0 < storeTotalOf c then
    ((⌈(storeTotalOf c + travelOf c) * (0.5 : ℚ)⌉ : ℤ) : ℚ)
  else
    ((⌈servicesOf c * (0.2 : ℚ) + storeTotalOf c * (0.5 : ℚ)⌉ : ℤ) : ℚ)

/-- `remainingAmount = Math.max(0, Math.round(totalAmount - depositAmount))`. -/
def remainingOf (c : Contract) : ℚ :=
  max 0 ((jround (totalOf c - depositOf c) : ℤ) : ℚ)

/-- Result record of the dashboard's `contractAmounts`. -/
structure Amounts where
  services : ℚ
  storeTotal : ℚ
  travel : ℚ
  total : ℚ

/-- `contractAmounts` of the FinancialDashboard (duplicated verbatim inside
`computeMonthlyData`). -/
def contractAmounts (c : Contract) : Amounts :=
  ⟨servicesOf c, storeTotalOf c, travelOf c, totalOf c⟩

/-- Result record of the calendar's `computeAmounts`. -/
structure CalAmounts where
  servicesTotal : ℚ
  storeTotal : ℚ
  travel : ℚ
  totalAmount : ℚ
  depositAmount : ℚ
  remainingAmount : ℚ

/-- `computeAmounts` of the AdminCalendar: the same derivation as
`contractAmounts` plus the deposit and remaining amounts. -/
def computeAmounts (c : Contract) : CalAmounts :=
  ⟨servicesOf c, storeTotalOf c, travelOf c, totalOf c, depositOf c, remainingOf c⟩

theorem contractAmounts_total (c : Contract) : (contractAmounts c).total = totalOf c := rfl

theorem computeAmounts_servicesTotal (c : Contract) :
    (computeAmounts c).servicesTotal = servicesOf c := rfl

theorem computeAmounts_storeTotal (c : Contract) :
    (computeAmounts c).storeTotal = storeTotalOf c := rfl

theorem computeAmounts_travel (c : Contract) : (computeAmounts c).travel = travelOf c := rfl

theorem computeAmounts_totalAmount (c : Contract) :
    (computeAmounts c).totalAmount = totalOf c := rfl

theorem computeAmounts_depositAmount (c : Contract) :
    (computeAmounts c).depositAmount = depositOf c := rfl

theorem computeAmounts_remainingAmount (c : Contract) :
    (computeAmounts c).remainingAmount = remainingOf c := rfl

/-- The derived services amount is never negative: either the raw services sum
is positive or the `Math.max(0, ...)` fallback is used. -/
theorem servicesOf_nonneg (c : Contract) : 0 ≤ servicesOf c := by
  unfold servicesOf
  split
  · linarith
  · exact le_max_left _ _

/-- JS `Math.round` of a nonnegative number is nonnegative. -/
theorem jround_nonneg {q : ℚ} (h : 0 ≤ q) : 0 ≤ jround q := by
  unfold jround
  exact Int.le_floor.mpr (by push_cast; linarith)

/-- JS `Math.round` of an integer is that integer. -/
theorem jround_intCast (n : ℤ) : jround ((n : ℤ) : ℚ) = n := by
  unfold jround
  rw [Int.floor_int_add]
  norm_num

/-- A contract with one store item (price 100, quantity 1), a travel fee of 50
and no service lines: the derived services amount is 0. -/
def cexC1 : Contract := { storeItems := [⟨100, some 1⟩], travelFee := some 50 }

/-- C1 counterexample: with no services, one store item of 100 and a travel fee
of 50, the code computes `depositAmount = ceil((storeTotal + travel) * 0.5) = 75`,
not `ceil(storeTotal * 0.5) = 50` as the claim states for the `services = 0`
case.  The travel fee is included in the halved base. -/
theorem computeAmounts_deposit_cex :
    (computeAmounts cexC1).servicesTotal = 0 ∧
    (computeAmounts cexC1).depositAmount = 75 ∧
    ((⌈(computeAmounts cexC1).storeTotal * (0.5 : ℚ)⌉ : ℤ) : ℚ) = 50 ∧
    (computeAmounts cexC1).depositAmount ≠
      ((⌈(computeAmounts cexC1).storeTotal * (0.5 : ℚ)⌉ : ℤ) : ℚ) := by
  refine ⟨?_, ?_, ?_, ?_⟩ <;>
    norm_num [computeAmounts, depositOf, servicesOf, servicesTotalRaw, svcListOf,
      totalFromDoc, storeTotalOf, travelOf, jsOrNum, jsNullish, cexC1]

/-- C1 (amended): when the derived services amount is 0 and the store total is
positive, `depositAmount = ceil((storeTotal + travel) * 0.5)` — the travel fee
is part of the halved base; in every other case
`depositAmount = ceil(services * 0.2 + storeTotal * 0.5)`. -/
theorem computeAmounts_deposit_formula (c : Contract) :
    ((computeAmounts c).servicesTotal = 0 ∧ 0 < (computeAmounts c).storeTotal →
      (computeAmounts c).depositAmount =
        ((⌈((computeAmounts c).storeTotal + (computeAmounts c).travel) * (0.5 : ℚ)⌉ : ℤ) : ℚ)) ∧
    (¬((computeAmounts c).servicesTotal = 0 ∧ 0 < (computeAmounts c).storeTotal) →
      (computeAmounts c).depositAmount =
        ((⌈(computeAmounts c).servicesTotal * (0.2 : ℚ) +
            (computeAmounts c).storeTotal * (0.5 : ℚ)⌉ : ℤ) : ℚ)) := by
  simp only [computeAmounts_servicesTotal, computeAmounts_storeTotal,
    computeAmounts_travel, computeAmounts_depositAmount]
  constructor
  · rintro ⟨h0, hst⟩
    unfold depositOf
    rw [if_pos ⟨le_of_eq h0, hst⟩]
  · intro h
    unfold depositOf
    rw [if_neg]
    rintro ⟨h1, h2⟩
    exact h ⟨le_antisymm h1 (servicesOf_nonneg c), h2⟩

/-- C1 witness: the amended formula evaluated on the concrete contract. -/
theorem computeAmounts_deposit_formula_witness :
    ((computeAmounts cexC1).servicesTotal = 0 ∧ 0 < (computeAmounts cexC1).storeTotal) ∧
    (computeAmounts cexC1).depositAmount =
      ((⌈((computeAmounts cexC1).storeTotal + (computeAmounts cexC1).travel) * (0.5 : ℚ)⌉ : ℤ) : ℚ) := by
  have h : (computeAmounts cexC1).servicesTotal = 0 ∧ 0 < (computeAmounts cexC1).storeTotal := by
    constructor <;>
      norm_num [computeAmounts, servicesOf, servicesTotalRaw, svcListOf,
        totalFromDoc, storeTotalOf, travelOf, jsOrNum, jsNullish, cexC1]
  exact ⟨h, (computeAmounts_deposit_formula cexC1).1 h⟩

/-- A contract with stored total −100 and travel fee −200 and nothing else. -/
def cexC2 : Contract := { totalAmount := some (-100), travelFee := some (-200) }

/-- C2 counterexample: with `totalAmount = -100` and `travelFee = -200` the
fallback services amount is `max(0, -100 - 0 + 200) = 100` and the derived
total is `round(100 + 0 - 200) = -100 < 0`; the invariant `total ≥ 0` does not
hold for arbitrary inputs. -/
theorem contractAmounts_total_neg_cex :
    (contractAmounts cexC2).total < 0 ∧ (computeAmounts cexC2).totalAmount < 0 := by
  constructor <;>
    norm_num [contractAmounts, computeAmounts, totalOf, jround, servicesOf,
      servicesTotalRaw, svcListOf, totalFromDoc, storeTotalOf, travelOf,
      jsOrNum, jsNullish, cexC2]

/-- C2 (amended): the derived total is nonnegative provided the travel fee and
the store-items total are nonnegative (the stored `totalAmount` and the service
lines may still be arbitrary, since the derived services amount is always
nonnegative). -/
theorem total_nonneg (c : Contract) (ht : 0 ≤ travelOf c) (hs : 0 ≤ storeTotalOf c) :
    0 ≤ (contractAmounts c).total ∧ 0 ≤ (computeAmounts c).totalAmount := by
  have h : 0 ≤ totalOf c := by
    unfold totalOf
    have hsv := servicesOf_nonneg c
    exact_mod_cast jround_nonneg (by linarith)
  exact ⟨h, h⟩

/-- A contract document with no fields set. -/
def wC2 : Contract := {}

/-- C2 witness: the amended nonnegativity on a concrete contract. -/
theorem total_nonneg_witness :
    (0 ≤ travelOf wC2 ∧ 0 ≤ storeTotalOf wC2) ∧ 0 ≤ (contractAmounts wC2).total := by
  have ht : 0 ≤ travelOf wC2 := by norm_num [travelOf, jsOrNum, wC2]
  have hs : 0 ≤ storeTotalOf wC2 := by norm_num [storeTotalOf, wC2]
  exact ⟨⟨ht, hs⟩, (total_nonneg wC2 ht hs).1⟩

/-- A contract with stored total 10 and travel fee −90: derived total 10 ≥ 0,
deposit 20. -/
def cexC3 : Contract := { totalAmount := some 10, travelFee := some (-90) }

/-- C3 counterexample: the derived total is 10 ≥ 0, the deposit is
`ceil(100 * 0.2) = 20 > 10`, and the remaining amount is clamped at 0, so
`depositAmount + remainingAmount = 20 ≠ 10 = total` despite `total ≥ 0`. -/
theorem deposit_add_remaining_cex :
    0 ≤ (computeAmounts cexC3).totalAmount ∧
    (computeAmounts cexC3).totalAmount = 10 ∧
    (computeAmounts cexC3).depositAmount = 20 ∧
    (computeAmounts cexC3).remainingAmount = 0 ∧
    (computeAmounts cexC3).depositAmount + (computeAmounts cexC3).remainingAmount ≠
      (computeAmounts cexC3).totalAmount := by
  refine ⟨?_, ?_, ?_, ?_, ?_⟩ <;>
    norm_num [computeAmounts, totalOf, depositOf, remainingOf, jround, servicesOf,
      servicesTotalRaw, svcListOf, totalFromDoc, storeTotalOf, travelOf,
      jsOrNum, jsNullish, cexC3]

/-- C3 (amended): for every contract,
`depositAmount + remainingAmount = max(depositAmount, total)`, so the sum
equals the derived total exactly when the deposit does not exceed it;
`total ≥ 0` alone is not sufficient. -/
theorem deposit_add_remaining (c : Contract) :
    (computeAmounts c).depositAmount + (computeAmounts c).remainingAmount
        = max (computeAmounts c).depositAmount (computeAmounts c).totalAmount ∧
    ((computeAmounts c).depositAmount + (computeAmounts c).remainingAmount =
        (computeAmounts c).totalAmount ↔
      (computeAmounts c).depositAmount ≤ (computeAmounts c).totalAmount) := by
  simp only [computeAmounts_depositAmount, computeAmounts_totalAmount,
    computeAmounts_remainingAmount]
  obtain ⟨b, hb⟩ : ∃ b : ℤ, depositOf c = (b : ℚ) := by
    unfold depositOf
    split
    · exact ⟨_, rfl⟩
    · exact ⟨_, rfl⟩
  obtain ⟨a, ha⟩ : ∃ a : ℤ, totalOf c = (a : ℚ) := ⟨_, rfl⟩
  have hrem : remainingOf c = max 0 (totalOf c - depositOf c) := by
    unfold remainingOf
    rw [ha, hb, show (a : ℚ) - (b : ℚ) = (((a - b : ℤ)) : ℚ) by push_cast; ring,
      jround_intCast]
  have hmax : depositOf c + remainingOf c = max (depositOf c) (totalOf c) := by
    rcases le_total (depositOf c) (totalOf c) with h | h
    · rw [hrem, max_eq_right (sub_nonneg.mpr h), max_eq_right h]
      ring
    · rw [hrem, max_eq_left (sub_nonpos.mpr h), max_eq_left h]
      ring
  refine ⟨hmax, ?_, ?_⟩
  · intro hsum
    rw [hmax] at hsum
    exact max_eq_right_iff.mp hsum
  · intro h
    rw [hmax, max_eq_right h]

/-- The second deposit scenario of the specification: one store item 50×2,
stored total 100. -/
def wC3 : Contract := { storeItems := [⟨50, some 2⟩], totalAmount := some 100 }

/-- C3 witness: on the concrete contract the deposit (50) is at most the total
(100) and the sum law is obtained from the equivalence. -/
theorem deposit_add_remaining_witness :
    (computeAmounts wC3).depositAmount ≤ (computeAmounts wC3).totalAmount ∧
    (computeAmounts wC3).depositAmount + (computeAmounts wC3).remainingAmount =
      (computeAmounts wC3).totalAmount := by
  have h : (computeAmounts wC3).depositAmount ≤ (computeAmounts wC3).totalAmount := by
    norm_num [computeAmounts, totalOf, depositOf, jround, servicesOf,
      servicesTotalRaw, svcListOf, totalFromDoc, storeTotalOf, travelOf,
      jsOrNum, jsNullish, wC3]
  exact ⟨h, (deposit_add_remaining wC3).2.mpr h⟩

/-- A contract with one service line whose price string contains no digits
(`Number('') = 0`) and a stored total of 1000. -/
def cexC4 : Contract := { services := [⟨"", some 1⟩], totalAmount := some 1000 }

/-- C4 counterexample: this contract has a non-empty service-line list, yet its
raw services sum is 0, so the stored `totalAmount` flows into the fallback and
changing only `totalAmount` (1000 → 0) changes the derived total (1000 → 0). -/
theorem total_totalAmount_dependent_cex :
    cexC4.services ≠ [] ∧
    (contractAmounts cexC4).total = 1000 ∧
    (contractAmounts { cexC4 with totalAmount := some 0 }).total = 0 ∧
    (contractAmounts { cexC4 with totalAmount := some 0 }).total ≠
      (contractAmounts cexC4).total := by
  have h0 : stripDigits "" = 0 := rfl
  refine ⟨by simp [cexC4], ?_, ?_, ?_⟩ <;>
    norm_num [contractAmounts, totalOf, jround, servicesOf, servicesTotalRaw,
      svcListOf, totalFromDoc, storeTotalOf, travelOf, jsOrNum, jsNullish, cexC4, h0]

/-- C4 (amended): whenever the raw services sum is positive (non-emptiness of
the service-line list alone is not enough: a line whose price parses to 0
leaves the sum at 0), the derived total is independent of the stored
`totalAmount`. -/
theorem total_indep_totalAmount (c : Contract) (t : Option ℚ)
    (h : 0 < servicesTotalRaw (svcListOf c)) :
    (contractAmounts { c with totalAmount := t }).total = (contractAmounts c).total := by
  have hsvc : svcListOf { c with totalAmount := t } = svcListOf c := rfl
  have hst : storeTotalOf { c with totalAmount := t } = storeTotalOf c := rfl
  have htr : travelOf { c with totalAmount := t } = travelOf c := rfl
  have hs : servicesOf { c with totalAmount := t } = servicesOf c := by
    unfold servicesOf
    rw [hsvc, hst, htr, if_pos h, if_pos h]
  simp only [contractAmounts_total]
  unfold totalOf
  rw [hs, hst, htr]

/-- A contract whose single service line has price string "10". -/
def wC4 : Contract := { services := [⟨"10", some 1⟩], totalAmount := some 77 }

/-- C4 witness: with a positive raw services sum, replacing the stored total
changes nothing in the derived total. -/
theorem total_indep_totalAmount_witness :
    0 < servicesTotalRaw (svcListOf wC4) ∧
    (contractAmounts { wC4 with totalAmount := some 0 }).total =
      (contractAmounts wC4).total := by
  have h0 : stripDigits "10" = 10 := rfl
  have h : 0 < servicesTotalRaw (svcListOf wC4) := by
    norm_num [servicesTotalRaw, svcListOf, jsNullish, wC4, h0]
  exact ⟨h, total_indep_totalAmount wC4 (some 0) h⟩

/-- The effective date string of a contract:
`c.contractDate || c.eventDate || c.createdAt || ''` — the first field that is
not the empty string, even if it fails to parse. -/
def effDateStr (c : Contract) : DateStr :=
  match c.contractDate with
  | DateStr.empty =>
    match c.eventDate with
    | DateStr.empty => c.createdAt
    | d => d
  | d => d

/-- A contract passes the period filter when its effective date does. -/
def passFilter (now : Ymd) (p : Period) (c : Contract) : Bool :=
  isInPeriod now p (effDateStr c)

/-- An investment installment: a due date and an amount. -/
structure Installment where
  dueDate : DateStr := DateStr.empty
  amount : Option ℚ := none

/-- One row of `computeMonthlyData`'s 12-month array (the month label is
presentational and not modelled). -/
structure MonthRow where
  income : ℚ
  expenses : ℚ
  profit : ℚ
  earned : ℚ
  forecast : ℚ

/-- The freshly built month array: all five numeric fields are 0. -/
def monthsInit : Fin 12 → MonthRow := fun _ => ⟨0, 0, 0, 0, 0⟩

/-- Contract loop body of `computeMonthlyData`: a contract with an empty or
unparsable or period-rejected effective date is skipped; otherwise its derived
total is added to `income` of its calendar month, to `earned` and `profit`
when `eventCompleted`, else to `forecast` when dated today or later
(`todayMs` is today's midnight timestamp). -/
def contractStep (now : Ymd) (todayMs : ℤ) (p : Period)
    (months : Fin 12 → MonthRow) (c : Contract) : Fin 12 → MonthRow :=
  match effDateStr c with
  | DateStr.empty => months
  | DateStr.bad => months
  | DateStr.ymd d =>
    if isInPeriodYmd now p d then
      let m := getMonth d
      let amount := (contractAmounts c).total
      let r2 := { months m with income := (months m).income + amount }
      let r3 :=
        if c.eventCompleted then
          { r2 with earned := r2.earned + amount, profit := r2.profit + amount }
        else if todayMs ≤ msOf d then { r2 with forecast := r2.forecast + amount }
        else r2
      Function.update months m r3
    else months

/-- Installment loop body of `computeMonthlyData`: a period-matching
installment adds its amount to `expenses` and subtracts it from `profit` of
its due month. -/
def instStep (now : Ymd) (p : Period)
    (months : Fin 12 → MonthRow) (inst : Installment) : Fin 12 → MonthRow :=
  match inst.dueDate with
  | DateStr.empty => months
  | DateStr.bad => months
  | DateStr.ymd d =>
    if isInPeriodYmd now p d then
      let a := jsOrNum inst.amount 0
      Function.update months (getMonth d)
        { months (getMonth d) with
          expenses := (months (getMonth d)).expenses + a,
          profit := (months (getMonth d)).profit - a }
    else months

/-- `computeMonthlyData`: fold the contracts, then the installments, over the
12-month array. -/
def computeMonthlyData (now : Ymd) (todayMs : ℤ) (p : Period)
    (contracts : List Contract) (insts : List Installment) : Fin 12 → MonthRow :=
  insts.foldl (instStep now p) (contracts.foldl (contractStep now todayMs p) monthsInit)

/-- Updating one cell of the month array changes the income sum by the income
difference of that cell. -/
theorem sum_income_update (f : Fin 12 → MonthRow) (m : Fin 12) (v : MonthRow) :
    ∑ i, (Function.update f m v i).income
      = ∑ i, (f i).income - (f m).income + v.income := by
  have h1 : ∑ i, (Function.update f m v i).income
      = ∑ i, Function.update (fun j => (f j).income) m v.income i :=
    Finset.sum_congr rfl (fun i _ => by
      by_cases h : i = m
      · subst h; simp
      · simp [Function.update_noteq h])
  have h2 := Finset.sum_update_of_mem (Finset.mem_univ m) (fun j => (f j).income) v.income
  have h3 := Finset.add_sum_erase Finset.univ (fun j => (f j).income) (Finset.mem_univ m)
  rw [h1, h2, Finset.sdiff_singleton_eq_erase]
  linarith

/-- One contract step adds the contract's derived total to the income sum
exactly when the contract passes the period filter. -/
theorem contractStep_income_sum (now : Ymd) (todayMs : ℤ) (p : Period)
    (months : Fin 12 → MonthRow) (c : Contract) :
    ∑ i, (contractStep now todayMs p months c i).income
      = ∑ i, (months i).income
        + (if passFilter now p c then (contractAmounts c).total else 0) := by
  unfold contractStep
  cases hd : effDateStr c with
  | empty => simp [passFilter, isInPeriod, hd]
  | bad => simp [passFilter, isInPeriod, hd]
  | ymd d =>
    simp only [passFilter, isInPeriod, hd]
    by_cases hp : isInPeriodYmd now p d = true
    · simp only [hp, if_true]
      rw [sum_income_update]
      split_ifs <;> simp <;> ring
    · simp [hp]

/-- One installment step never changes the income sum. -/
theorem instStep_income_sum (now : Ymd) (p : Period)
    (months : Fin 12 → MonthRow) (inst : Installment) :
    ∑ i, (instStep now p months inst i).income = ∑ i, (months i).income := by
  unfold instStep
  cases hd : inst.dueDate with
  | empty => rfl
  | bad => rfl
  | ymd d =>
    by_cases hp : isInPeriodYmd now p d = true
    · simp only [hp, if_true]
      rw [sum_income_update]
      ring
    · simp [hp]

/-- Folding the contract loop accumulates exactly the filtered totals. -/
theorem foldl_contract_income (now : Ymd) (todayMs : ℤ) (p : Period)
    (cs : List Contract) (months : Fin 12 → MonthRow) :
    ∑ i, ((cs.foldl (contractStep now todayMs p) months) i).income
      = ∑ i, (months i).income
        + ((cs.filter (fun c => passFilter now p c)).map
            (fun c => (contractAmounts c).total)).sum := by
  induction cs generalizing months with
  | nil => simp
  | cons c cs ih =>
    rw [List.foldl_cons, ih, contractStep_income_sum]
    by_cases hc : passFilter now p c
    · simp [List.filter_cons, hc]
      ring
    · simp [List.filter_cons, hc]

/-- Folding the installment loop preserves the income sum. -/
theorem foldl_inst_income (now : Ymd) (p : Period)
    (insts : List Installment) (months : Fin 12 → MonthRow) :
    ∑ i, ((insts.foldl (instStep now p) months) i).income
      = ∑ i, (months i).income := by
  induction insts generalizing months with
  | nil => rfl
  | cons inst insts ih => rw [List.foldl_cons, ih, instStep_income_sum]

/-- C6: the 12 `income` cells of `computeMonthlyData` sum to exactly the sum of
the derived totals of the contracts whose effective date passes the period
filter; completion status and the installment list play no role in income. -/
theorem monthly_income_sum (now : Ymd) (todayMs : ℤ) (p : Period)
    (contracts : List Contract) (insts : List Installment) :
    ∑ i, (computeMonthlyData now todayMs p contracts insts i).income
      = ((contracts.filter (fun c => passFilter now p c)).map
          (fun c => (contractAmounts c).total)).sum := by
  unfold computeMonthlyData
  rw [foldl_inst_income, foldl_contract_income]
  simp [monthsInit]

/-- `isFuture` of the metrics reducer: the parsed effective date is at or after
today's midnight (`todayMs`); an empty or unparsable date is not future. -/
def isFutureD (todayMs : ℤ) : DateStr → Bool
  | DateStr.ymd d => decide (todayMs ≤ msOf d)
  | _ => false

/-- The three revenue accumulators of the `metrics` reducer. -/
structure Rev where
  totalRevenue : ℚ
  completedRevenue : ℚ
  futureRevenue : ℚ

/-- Per-contract body of the `metrics` loop: the derived total always goes to
`totalRevenue`; to `completedRevenue` when `eventCompleted`; else to
`futureRevenue` when the effective date is today or later; otherwise to
neither sub-revenue. -/
def revStep (todayMs : ℤ) (r : Rev) (c : Contract) : Rev :=
  let amount := (contractAmounts c).total
  let r1 := { r with totalRevenue := r.totalRevenue + amount }
  if c.eventCompleted then
    { r1 with completedRevenue := r1.completedRevenue + amount }
  else if isFutureD todayMs (effDateStr c) then
    { r1 with futureRevenue := r1.futureRevenue + amount }
  else r1

/-- The revenue part of `metrics`: fold over the period-filtered contracts. -/
def metricsRev (now : Ymd) (todayMs : ℤ) (p : Period) (cs : List Contract) : Rev :=
  (cs.filter (fun c => passFilter now p c)).foldl (revStep todayMs) ⟨0, 0, 0⟩

/-- A period-matching contract dated 2024-01-01 whose derived total is −100
(stored total −100, travel fee −200), not completed. -/
def cexC9 : Contract :=
  { contractDate := DateStr.ymd d20240101, totalAmount := some (-100),
    travelFee := some (-200) }

/-- C9 counterexample: on the all-time period with today = 2024-02-01 this
single past-dated, uncompleted contract has derived total −100; it enters
`totalRevenue` only, so `totalRevenue = -100 < 0 = completedRevenue +
futureRevenue` and the claimed inequality fails (it relies on nonnegative
derived totals). -/
theorem metrics_revenue_cex :
    (metricsRev d20240101 (msOf d20240201) ⟨PType.all, none, none⟩ [cexC9]).totalRevenue
      < (metricsRev d20240101 (msOf d20240201) ⟨PType.all, none, none⟩ [cexC9]).completedRevenue
        + (metricsRev d20240101 (msOf d20240201) ⟨PType.all, none, none⟩ [cexC9]).futureRevenue := by
  have hpass : passFilter d20240101 ⟨PType.all, none, none⟩ cexC9 = true := by decide
  have hfut : isFutureD (msOf d20240201) (effDateStr cexC9) = false := by decide
  have hamt : (contractAmounts cexC9).total = -100 := by
    norm_num [contractAmounts, totalOf, jround, servicesOf, servicesTotalRaw,
      svcListOf, totalFromDoc, storeTotalOf, travelOf, jsOrNum, jsNullish, cexC9]
  have hec : cexC9.eventCompleted = false := rfl
  simp only [metricsRev, List.filter_cons, hpass, if_true, List.filter_nil,
    List.foldl_cons, List.foldl_nil, revStep, hfut, hamt, hec]
  norm_num

/-- One `revStep` preserves `completed + future ≤ total` when the contract's
derived total is nonnegative. -/
theorem revStep_le (todayMs : ℤ) (r : Rev) (c : Contract)
    (ha : 0 ≤ (contractAmounts c).total)
    (h : r.completedRevenue + r.futureRevenue ≤ r.totalRevenue) :
    (revStep todayMs r c).completedRevenue + (revStep todayMs r c).futureRevenue
      ≤ (revStep todayMs r c).totalRevenue := by
  unfold revStep
  split_ifs <;> simp <;> linarith

/-- The fold over any contract list preserves `completed + future ≤ total`
when every contract in the list has a nonnegative derived total. -/
theorem foldl_rev_le (todayMs : ℤ) (cs : List Contract) :
    ∀ r : Rev, (∀ c ∈ cs, 0 ≤ (contractAmounts c).total) →
      r.completedRevenue + r.futureRevenue ≤ r.totalRevenue →
      (cs.foldl (revStep todayMs) r).completedRevenue
        + (cs.foldl (revStep todayMs) r).futureRevenue
        ≤ (cs.foldl (revStep todayMs) r).totalRevenue := by
  induction cs with
  | nil => exact fun r _ h => h
  | cons c cs ih =>
    intro r hcs h
    rw [List.foldl_cons]
    exact ih _ (fun c' hc' => hcs c' (List.mem_cons_of_mem c hc'))
      (revStep_le todayMs r c (hcs c (List.mem_cons_self c cs)) h)

/-- C9 (amended): provided every period-matching contract's derived total is
nonnegative (see the C2 correction; contracts the period filter rejects may be
arbitrary), `completedRevenue + futureRevenue ≤ totalRevenue`: a
period-matching contract that is neither completed nor future-dated feeds
`totalRevenue` only, so the two sub-revenues need not partition it. -/
theorem metrics_sub_revenues_le (now : Ymd) (todayMs : ℤ) (p : Period)
    (cs : List Contract)
    (hcs : ∀ c ∈ cs, passFilter now p c = true → 0 ≤ (contractAmounts c).total) :
    (metricsRev now todayMs p cs).completedRevenue
      + (metricsRev now todayMs p cs).futureRevenue
      ≤ (metricsRev now todayMs p cs).totalRevenue := by
  unfold metricsRev
  refine foldl_rev_le todayMs _ _ (fun c hc => ?_) (by norm_num)
  have h2 := List.mem_filter.mp hc
  exact hcs c h2.1 h2.2

/-- An uncompleted contract dated 2024-01-31 with all amounts absent. -/
def wC9 : Contract := { contractDate := DateStr.ymd d20240131 }

/-- C9 witness: the amended inequality on a concrete one-contract list. -/
theorem metrics_sub_revenues_le_witness :
    (∀ c ∈ [wC9], passFilter d20240101 ⟨PType.all, none, none⟩ c = true →
      0 ≤ (contractAmounts c).total) ∧
    (metricsRev d20240101 0 ⟨PType.all, none, none⟩ [wC9]).completedRevenue
      + (metricsRev d20240101 0 ⟨PType.all, none, none⟩ [wC9]).futureRevenue
      ≤ (metricsRev d20240101 0 ⟨PType.all, none, none⟩ [wC9]).totalRevenue := by
  have h : ∀ c ∈ [wC9], passFilter d20240101 ⟨PType.all, none, none⟩ c = true →
      0 ≤ (contractAmounts c).total := by
    intro c hc _
    rw [List.mem_singleton] at hc
    subst hc
    norm_num [contractAmounts, totalOf, jround, servicesOf, servicesTotalRaw,
      svcListOf, totalFromDoc, storeTotalOf, travelOf, jsOrNum, jsNullish, wC9]
  exact ⟨h, metrics_sub_revenues_le d20240101 0 ⟨PType.all, none, none⟩ [wC9] h⟩

/-- The fields of a calendar event row (`ContractItem` in AdminCalendar) used
by the day bucketer and the event summary.  `eventTime` is the already-split
`HH:mm` pair (`none` when the string is empty/missing; a component that fails
to parse coerces to 0 in the source and is modelled by a 0 entry). -/
structure ContractItem where
  clientName : Option String := none
  eventDate : String := ""
  eventTime : Option (ℤ × ℤ) := none
  depositPaid : Option Bool := none
  finalPaymentPaid : Option Bool := none
  eventCompleted : Option Bool := none

/-- `toMinutes`: missing time is 0, otherwise hours×60 + minutes. -/
def toMinutes (t : Option (ℤ × ℤ)) : ℤ :=
  match t with
  | none => 0
  | some (h, m) => h * 60 + m

/-- `String(ev.clientName || '')`. -/
def nameOf (e : ContractItem) : String := e.clientName.getD ""

/-- The ordering used inside a day bucket: earlier time-of-day first, ties
broken by client name (`localeCompare` is modelled by the code-point order on
strings). -/
def evLe (a b : ContractItem) : Prop :=
  toMinutes a.eventTime < toMinutes b.eventTime ∨
    (toMinutes a.eventTime = toMinutes b.eventTime ∧ nameOf a ≤ nameOf b)

instance : DecidableRel evLe := fun a b => by
  unfold evLe
  infer_instance

instance : IsTotal ContractItem evLe := by
  constructor
  intro a b
  rcases lt_trichotomy (toMinutes a.eventTime) (toMinutes b.eventTime) with h | h | h
  · exact Or.inl (Or.inl h)
  · rcases le_total (nameOf a) (nameOf b) with hn | hn
    · exact Or.inl (Or.inr ⟨h, hn⟩)
    · exact Or.inr (Or.inr ⟨h.symm, hn⟩)
  · exact Or.inr (Or.inl h)

instance : IsTrans ContractItem evLe := by
  constructor
  intro a b c hab hbc
  rcases hab with h1 | ⟨h1, n1⟩ <;> rcases hbc with h2 | ⟨h2, n2⟩
  · exact Or.inl (h1.trans h2)
  · exact Or.inl (lt_of_lt_of_le h1 (le_of_eq h2))
  · exact Or.inl (lt_of_le_of_lt (le_of_eq h1) h2)
  · exact Or.inr ⟨h1.trans h2, n1.trans n2⟩

/-- `eventsByDay`: the bucket of a date key `k` — events with that (non-empty)
date key, in filtered order, sorted stably by time then client name.  An event
with an empty date string is skipped, so the empty key has an empty bucket. -/
def eventsByDay (evs : List ContractItem) (k : String) : List ContractItem :=
  if k = "" then []
  else List.insertionSort evLe (evs.filter (fun e => e.eventDate == k))

/-- C7: within every day bucket, any two events appear in ascending
time-of-day order, ties broken by ascending client name: every earlier entry
is `evLe`-below every later entry. -/
theorem eventsByDay_sorted (evs : List ContractItem) (k : String) :
    (eventsByDay evs k).Pairwise evLe := by
  unfold eventsByDay
  split
  · exact List.Pairwise.nil
  · exact List.sorted_insertionSort evLe _

/-- The three counters of `eventSummary`. -/
structure Summary where
  pending : ℕ
  editing : ℕ
  completed : ℕ

/-- One event of the `eventSummary` loop: `depositPaid !== true` counts as
pending; else deposit and final payment both made and not completed counts as
editing; else all three flags set counts as completed; any other event (in
particular deposit paid but final payment not) is counted nowhere. -/
def summaryStep (s : Summary) (ev : ContractItem) : Summary :=
  if ev.depositPaid ≠ some true then { s with pending := s.pending + 1 }
  else if ev.depositPaid = some true ∧ ev.finalPaymentPaid = some true ∧
      ev.eventCompleted ≠ some true then { s with editing := s.editing + 1 }
  else if ev.depositPaid = some true ∧ ev.finalPaymentPaid = some true ∧
      ev.eventCompleted = some true then { s with completed := s.completed + 1 }
  else s

/-- `eventSummary` over the filtered events. -/
def eventSummary (evs : List ContractItem) : Summary :=
  evs.foldl summaryStep ⟨0, 0, 0⟩

/-- An event with the deposit made but the final payment not marked `true`:
counted in none of the three buckets. -/
def orphanEv (ev : ContractItem) : Bool :=
  ev.depositPaid == some true && ev.finalPaymentPaid != some true

/-- One summary step adds 1 to the three-bucket sum unless the event is an
orphan (deposit paid, final payment not), which it leaves uncounted. -/
theorem summaryStep_sum (s : Summary) (ev : ContractItem) :
    (summaryStep s ev).pending + (summaryStep s ev).editing + (summaryStep s ev).completed
      = s.pending + s.editing + s.completed + (if orphanEv ev then 0 else 1) := by
  unfold summaryStep
  by_cases h1 : ev.depositPaid ≠ some true
  · have ho : orphanEv ev = false := by
      simp only [orphanEv, Bool.and_eq_false_iff, beq_eq_false_iff_ne, ne_eq]
      exact Or.inl h1
    rw [if_pos h1, ho]
    simp
    omega
  · rw [if_neg h1]
    have hdp : ev.depositPaid = some true := not_not.mp h1
    by_cases h2 : ev.finalPaymentPaid = some true
    · have ho : orphanEv ev = false := by simp [orphanEv, h2]
      by_cases h3 : ev.eventCompleted = some true
      · rw [if_neg, if_pos ⟨hdp, h2, h3⟩, ho]
        · simp
          omega
        · rintro ⟨-, -, hne⟩
          exact hne h3
      · rw [if_pos ⟨hdp, h2, h3⟩, ho]
        simp
        omega
    · have ho : orphanEv ev = true := by simp [orphanEv, hdp, h2]
      rw [if_neg, if_neg, ho]
      · simp
      · rintro ⟨-, hfp, -⟩
        exact h2 hfp
      · rintro ⟨-, hfp, -⟩
        exact h2 hfp

/-- Folding the summary over any list counts every event once, except the
orphans which are skipped. -/
theorem foldl_summary (evs : List ContractItem) :
    ∀ s : Summary,
      ((evs.foldl summaryStep s).pending + (evs.foldl summaryStep s).editing
          + (evs.foldl summaryStep s).completed) + evs.countP orphanEv
        = (s.pending + s.editing + s.completed) + evs.length := by
  induction evs with
  | nil => intro s; simp
  | cons ev evs ih =>
    intro s
    rw [List.foldl_cons, List.countP_cons, List.length_cons]
    have hstep := summaryStep_sum s ev
    have hih := ih (summaryStep s ev)
    by_cases ho : orphanEv ev = true <;> simp [ho] at hstep ⊢ <;> omega

/-- C10: the pending/editing/completed buckets are disjoint and miss exactly
the events with `depositPaid = true` but `finalPaymentPaid ≠ true`; hence
their sum plus the orphan count equals the number of filtered events, the sum
never exceeds that number, and it is strictly below it whenever an orphan
exists. -/
theorem eventSummary_partition (evs : List ContractItem) :
    ((eventSummary evs).pending + (eventSummary evs).editing
        + (eventSummary evs).completed) + evs.countP orphanEv = evs.length ∧
    (eventSummary evs).pending + (eventSummary evs).editing
        + (eventSummary evs).completed ≤ evs.length ∧
    ((∃ ev ∈ evs, ev.depositPaid = some true ∧ ev.finalPaymentPaid ≠ some true) →
      (eventSummary evs).pending + (eventSummary evs).editing
          + (eventSummary evs).completed < evs.length) := by
  have h := foldl_summary evs ⟨0, 0, 0⟩
  simp only [eventSummary] at *
  refine ⟨by omega, by omega, ?_⟩
  rintro ⟨ev, hev, hdp, hfp⟩
  have hpos : 0 < evs.countP orphanEv :=
    List.countP_pos_iff.mpr ⟨ev, hev, by simp [orphanEv, hdp, hfp]⟩
  omega

/-- An event with the deposit made and no final payment flag. -/
def wEv : ContractItem := { depositPaid := some true }

/-- C10 witness: on a one-event list containing an orphan, the bucket sum is
strictly below the event count. -/
theorem eventSummary_partition_witness :
    (eventSummary [wEv]).pending + (eventSummary [wEv]).editing
        + (eventSummary [wEv]).completed < [wEv].length :=
  (eventSummary_partition [wEv]).2.2 ⟨wEv, by simp, rfl, by simp [wEv]⟩

/-- A budget envelope document; `available` is derived, never stored. -/
structure Envelope where
  id : String
  name : String := ""
  percentage : ℚ := 0
  allocated : ℚ := 0
  spent : ℚ := 0

/-- `available = allocated - spent`, recomputed at load time. -/
def Envelope.available (e : Envelope) : ℚ := e.allocated - e.spent

/-- Transaction type tag. -/
inductive TxType where
  | income : TxType
  | expense : TxType
deriving DecidableEq

/-- A budget transaction document. -/
structure Transaction where
  id : String
  date : String := ""
  description : String := ""
  category : String := ""
  type : TxType
  amount : ℚ
  envelopeId : Option String := none

/-- `updateDoc(doc(db, 'budget_envelopes', eid), { spent: v })`: the local
collection after reload has every envelope with that document id carrying the
new `spent`. -/
def setSpent (envs : List Envelope) (eid : String) (v : ℚ) : List Envelope :=
  envs.map (fun e => if e.id = eid then { e with spent := v } else e)

/-- `handleAddExpense`: rejects a non-positive amount or an unknown selected
envelope; otherwise appends an expense transaction tagged with the envelope
and raises the envelope's `spent` by the amount (two sequential writes). -/
def handleAddExpense (envs : List Envelope) (txs : List Transaction)
    (selected : String) (amount : ℚ) (description : String) (txId date : String) :
    Option (List Envelope × List Transaction) :=
  if amount ≤ 0 then none
  else
    match envs.find? (fun e => e.id == selected) with
    | none => none
    | some envelope =>
      some (setSpent envs selected (envelope.spent + amount),
        txs ++ [{ id := txId, date := date,
                  description := if description = "" then "Gasto" else description,
                  category := envelope.name, type := TxType.expense,
                  amount := amount, envelopeId := some selected }])

/-- `handleDeleteTransaction`: when the transaction exists, is an expense and
carries a truthy (non-empty) envelope id whose envelope is found, lower that
envelope's `spent` by the amount floored at 0; in every case remove the
transaction. -/
def handleDeleteTransaction (envs : List Envelope) (txs : List Transaction)
    (txId : String) : List Envelope × List Transaction :=
  let envs2 :=
    match txs.find? (fun t => t.id == txId) with
    | none => envs
    | some t =>
      match t.envelopeId with
      | none => envs
      | some eid =>
        if eid ≠ "" ∧ t.type = TxType.expense then
          match envs.find? (fun e => e.id == eid) with
          | none => envs
          | some envelope => setSpent envs eid (max 0 (envelope.spent - t.amount))
        else envs
  (envs2, txs.filter (fun t => !(t.id == txId)))

/-- `setSpent` commutes with `find?` on the written id. -/
theorem find?_setSpent (envs : List Envelope) (eid : String) (v : ℚ) :
    (setSpent envs eid v).find? (fun e => e.id == eid)
      = (envs.find? (fun e => e.id == eid)).map (fun e => { e with spent := v }) := by
  induction envs with
  | nil => rfl
  | cons e envs ih =>
    have hc : setSpent (e :: envs) eid v
        = (if e.id = eid then { e with spent := v } else e) :: setSpent envs eid v := rfl
    rw [hc]
    by_cases h : e.id = eid
    · rw [if_pos h, List.find?_cons_of_pos _ (by simp [h]),
        List.find?_cons_of_pos _ (by simp [h])]
      simp
    · rw [if_neg h, List.find?_cons_of_neg _ (by simp [h]),
        List.find?_cons_of_neg _ (by simp [h])]
      exact ih

/-- Overwriting the same envelope id twice keeps only the second write. -/
theorem setSpent_setSpent (envs : List Envelope) (eid : String) (v w : ℚ) :
    setSpent (setSpent envs eid v) eid w = setSpent envs eid w := by
  have hfg : ((fun e => if e.id = eid then { e with spent := w } else e) ∘
      (fun e : Envelope => if e.id = eid then { e with spent := v } else e))
      = (fun e : Envelope => if e.id = eid then { e with spent := w } else e) := by
    funext e
    by_cases h : e.id = eid <;> simp [Function.comp, h]
  unfold setSpent
  rw [List.map_map, hfg]

/-- Writing to an id that occurs nowhere in the list is a no-op. -/
theorem setSpent_of_not_mem (envs : List Envelope) (eid : String) (v : ℚ)
    (h : ∀ x ∈ envs, ¬x.id = eid) : setSpent envs eid v = envs := by
  induction envs with
  | nil => rfl
  | cons e envs ih =>
    have hc : setSpent (e :: envs) eid v
        = (if e.id = eid then { e with spent := v } else e) :: setSpent envs eid v := rfl
    rw [hc, if_neg (h e (by simp)), ih (fun x hx => h x (by simp [hx]))]

/-- With pairwise-distinct envelope ids, writing back the `spent` value of the
envelope `find?` locates restores the list exactly. -/
theorem setSpent_restore (envs : List Envelope) (eid : String) (env : Envelope)
    (hnd : (envs.map Envelope.id).Nodup)
    (hfind : envs.find? (fun e => e.id == eid) = some env) :
    setSpent envs eid env.spent = envs := by
  induction envs with
  | nil => exact absurd hfind (by simp)
  | cons e envs ih =>
    rw [List.map_cons, List.nodup_cons] at hnd
    have hc : setSpent (e :: envs) eid env.spent
        = (if e.id = eid then { e with spent := env.spent } else e)
            :: setSpent envs eid env.spent := rfl
    by_cases h : e.id = eid
    · rw [List.find?_cons_of_pos _ (by simp [h])] at hfind
      have he : e = env := by
        simpa using hfind
      subst he
      rw [hc, if_pos h]
      have htail : setSpent envs eid e.spent = envs := by
        refine setSpent_of_not_mem envs eid e.spent (fun x hx hxe => ?_)
        exact hnd.1 (h ▸ hxe ▸ List.mem_map_of_mem Envelope.id hx)
      rw [htail]
    · rw [List.find?_cons_of_neg _ (by simp [h])] at hfind
      rw [hc, if_neg h, ih hnd.2 hfind]

/-- A transaction appended with a fresh id is the one `find?` locates. -/
theorem find?_append_fresh (txs : List Transaction) (t : Transaction) (i : String)
    (hi : t.id = i) (h : ∀ t2 ∈ txs, t2.id ≠ i) :
    (txs ++ [t]).find? (fun t2 => t2.id == i) = some t := by
  rw [List.find?_append]
  have h1 : txs.find? (fun t2 => t2.id == i) = none := by
    rw [List.find?_eq_none]
    intro t2 ht2
    simp [h t2 ht2]
  rw [h1]
  simp [List.find?, hi]

/-- Filtering out a fresh id removes exactly the appended transaction. -/
theorem filter_append_fresh (txs : List Transaction) (t : Transaction) (i : String)
    (hi : t.id = i) (h : ∀ t2 ∈ txs, t2.id ≠ i) :
    (txs ++ [t]).filter (fun t2 => !(t2.id == i)) = txs := by
  rw [List.filter_append]
  have h2 : [t].filter (fun t2 => !(t2.id == i)) = [] := by simp [hi]
  rw [h2, List.append_nil, List.filter_eq_self]
  intro t2 ht2
  simp [h t2 ht2]

/-- C8: adding an expense against an envelope with nonnegative `spent` and
then deleting the created transaction returns the exact original state — every
envelope's `spent`, hence its `available = allocated - spent`, and the
transaction log are restored.  The envelope ids are pairwise distinct and the
created transaction id is fresh, as the document store guarantees, and a
stored id is non-empty. -/
theorem add_then_delete_restores (envs : List Envelope) (txs : List Transaction)
    (selected : String) (amount : ℚ) (description txId date : String)
    (env : Envelope)
    (hnd : (envs.map Envelope.id).Nodup)
    (hfind : envs.find? (fun e => e.id == selected) = some env)
    (hsel : selected ≠ "")
    (hspent : 0 ≤ env.spent)
    (hamt : 0 < amount)
    (hfresh : ∀ t ∈ txs, t.id ≠ txId) :
    (handleAddExpense envs txs selected amount description txId date).map
        (fun st => handleDeleteTransaction st.1 st.2 txId)
      = some (envs, txs) := by
  unfold handleAddExpense
  rw [if_neg (not_le.mpr hamt), hfind]
  simp only [Option.map_some']
  unfold handleDeleteTransaction
  rw [find?_append_fresh txs _ txId rfl hfresh]
  simp only
  rw [if_pos ⟨hsel, trivial⟩, find?_setSpent, hfind]
  simp only [Option.map_some']
  have hmax : max 0 (env.spent + amount - amount) = env.spent := by
    rw [show env.spent + amount - amount = env.spent by ring, max_eq_right hspent]
  rw [setSpent_setSpent, hmax, setSpent_restore envs selected env hnd hfind,
    filter_append_fresh txs _ txId rfl hfresh]

/-- The envelope of the specification scenario: allocated 1000, spent 600. -/
def wEnv : Envelope := { id := "env1", name := "Food", allocated := 1000, spent := 600 }

/-- C8 witness: adding a 200 expense against the scenario envelope and deleting
the created transaction restores the one-envelope, empty-log state. -/
theorem add_then_delete_restores_witness :
    (handleAddExpense [wEnv] [] "env1" 200 "" "t1" "2024-01-01").map
        (fun st => handleDeleteTransaction st.1 st.2 "t1")
      = some ([wEnv], []) := by
  refine add_then_delete_restores [wEnv] [] "env1" 200 "" "t1" "2024-01-01" wEnv
    (by simp) rfl (by simp) ?_ ?_ (by simp)
  · show (0 : ℚ) ≤ 600
    norm_num
  · norm_num
